import Mathlib

/-!
# ohdear-system-health: the health-check handler of `main.go`

A shallow embedding of `main.go` and the properties of its status
classification, access gate, check producers and request handler.

Modelling conventions.

* A `float64` is a `Float64`: NaN, one of the two infinities, or a finite
  value, which is modelled by the rational number it denotes (every finite
  `float64` is a rational).  The operator `>` is the IEEE comparison, false
  whenever an operand is NaN.
* The conversion `float64(limits.Error)` of an `int` threshold rounds to the
  nearest value with a 53-bit significand, ties to even; it is exact for every
  integer of magnitude at most `2^53`.
* The external collaborators (viper, gopsutil, the TCP dialer, the clock,
  `fmt`'s float formatting) are fields of a `World`: the answers they give
  during one request.
* `log.Fatal` ends the process: a function that can reach it returns an
  `Outcome`, either `returned` or `fatal`.
* Every call to a collaborator, to a check producer and to the response
  writer is recorded, in order, in a trace of `Event`s.
-/

namespace OhDear

set_option linter.unusedVariables false

/-! ## Data model -/

/-- The Go struct `Limits`. -/
structure Limits where
  Warning : Int
  Error : Int
deriving DecidableEq, Repr

/-- The Go struct `Service`. -/
structure Service where
  Description : String
  Port : String
deriving DecidableEq, Repr

/-- The Go struct `CheckResult`. -/
structure CheckResult where
  Name : String
  Label : String
  Status : String
  NotificationMessage : String
  ShortSummary : String
deriving DecidableEq, Repr

/-- The Go struct `HealthCheckResult`. -/
structure HealthCheckResult where
  FinishedAt : Int
  CheckResults : List CheckResult
deriving DecidableEq, Repr

/-- The typed view of the configuration that viper holds: the keys `main.go`
reads (`Core.Secret`, and the four keys passed to `UnmarshalKey`). -/
structure Config where
  Secret : String
  LoadAverage : Limits
  MemoryUsagePercent : Limits
  DiskUsagePercent : Limits
  TCPServices : List Service
deriving DecidableEq, Repr

/-- The fields of gopsutil's `disk.PartitionStat` that `main.go` reads. -/
structure PartitionStat where
  Mountpoint : String
  Fstype : String
deriving DecidableEq, Repr

/-- A value of the Go type `float64`; a finite value is given by the rational
number it denotes. -/
inductive Float64 where
  | nan
  | negInf
  | posInf
  | fin (q : ℚ)
deriving DecidableEq

instance (n : Nat) : OfNat Float64 n := ⟨Float64.fin n⟩

/-- The field of gopsutil's `disk.UsageStat` that `main.go` reads. -/
structure UsageStat where
  UsedPercent : Float64

/-- A `net.Conn` handle. -/
abbrev Conn := Nat

/-- What a dial does: it connects, or it fails with an error. -/
inductive DialOutcome where
  | success (conn : Conn)
  | failure (err : String)

/-- The `http.Header` map: every key has a slice of values, `nil` when the key
is absent. -/
abbrev Header := String → List String

/-- The part of `http.Request` that `main.go` reads. -/
structure Request where
  Header : Header

/-- A marshalled JSON document, kept as the value that was marshalled. -/
inductive JsonDoc where
  /-- The result of `json.Marshal` on a `map[string]string`. -/
  | object (members : List (String × String))
  /-- The result of `json.MarshalIndent(report, "", "\t")`. -/
  | report (r : HealthCheckResult)

/-- The calls a request makes, in the order it makes them. -/
inductive Event where
  | readInConfig
  | unmarshalKey (key : String)
  | callCheckPartitions
  | callCheckLoad
  | callCheckMemory
  | callCheckTcpServices
  | diskPartitions
  | diskUsage (mountpoint : String)
  | loadAvg
  | virtualMemory
  | dialTimeout (address : String)
  | connClose (conn : Conn)
  | timeNow
  | writeHeader (code : Nat)
  | headerSet (key value : String)
  | write (body : JsonDoc)

/-- The answers of the collaborators during one request. -/
structure World where
  /-- The configuration `viper.ReadInConfig` finds, `none` when reading fails. -/
  configFile : Option Config
  /-- The result of `disk.Partitions(false)`. -/
  partitions : Except String (List PartitionStat)
  /-- The result of `disk.Usage` in the iteration with the given index. -/
  usage : Nat → String → Except String UsageStat
  /-- The 5-minute field of the result of `load.Avg()`. -/
  load5 : Except String Float64
  /-- The used-percent field of the result of `mem.VirtualMemory()`. -/
  memUsedPercent : Except String Float64
  /-- The outcome of the dial with the given position in the service list. -/
  dial : Nat → String → DialOutcome
  /-- The value of `time.Now().Unix()`. -/
  now : Int
  /-- The rendering of a float by the verb `%.Nf`, for the precision `N`. -/
  fmtFloat : Nat → Float64 → String

/-- The result of a function that may call `log.Fatal`. -/
inductive Outcome (α : Type) where
  | returned (val : α) (trace : List Event)
  | fatal (msg : String) (trace : List Event)

/-- The `http.ResponseWriter`: the header map the handler edits, and what has
been sent.  The status line is sent together with the header map as it is at
that moment. -/
structure ResponseWriter where
  header : String → List String
  status : Option Nat
  sentHeader : String → List String
  body : List JsonDoc

/-! ## Access gate and classifier -/

/-- The name of the header that carries the shared secret. -/
def secretHeaderName : String := "Oh-Dear-Health-Check-Secret"

/-- The Go function `checkSecret`; `viper` is the configuration currently
loaded, from which `viper.GetString("Core.Secret")` reads. -/
def checkSecret (viper : Config) (r : Request) : Bool :=
  let secretFromHeader := r.Header secretHeaderName
  if secretFromHeader.length ≠ 1 then
    false
  else
    let healthCheckSecret := viper.Secret
    if secretFromHeader.head? ≠ some healthCheckSecret then
      false
    else
      true

/-- The Go operator `>` on two `float64` operands: false when an operand is
NaN, otherwise the order of the extended reals. -/
def Float64.gt : Float64 → Float64 → Bool
  | .nan, _ => false
  | _, .nan => false
  | .negInf, _ => false
  | _, .posInf => false
  | .posInf, _ => true
  | .fin _, .negInf => true
  | .fin a, .fin b => decide (a > b)

/-- The number of binary digits that `m` has beyond 53, found by halving; the
first argument bounds the number of halvings. -/
def excessBits : Nat → Nat → Nat
  | 0, _ => 0
  | fuel + 1, m => if m < 2 ^ 53 then 0 else excessBits fuel (m / 2) + 1

/-- The natural number with a 53-bit significand nearest to `m`, ties going to
the even significand. -/
def roundNat53 (m : Nat) : Nat :=
  if m ≤ 2 ^ 53 then m
  else
    let k := excessBits m m
    let q := m / 2 ^ k
    let r := m % 2 ^ k
    let half := 2 ^ (k - 1)
    if r > half ∨ (r = half ∧ q % 2 = 1) then (q + 1) * 2 ^ k else q * 2 ^ k

/-- The Go conversion `float64(n)` of an `int`: the magnitude is rounded to
nearest, ties to even, and keeps its sign.  A Go `int` has at most 64 bits, so
the result is finite. -/
def float64 (n : Int) : Float64 :=
  if n < 0 then .fin (-(roundNat53 n.natAbs : ℚ)) else .fin (roundNat53 n.natAbs : ℚ)

/-- The Go function `getStatus`. -/
def getStatus (value : Float64) (limits : Limits) : String × String :=
  if Float64.gt value (float64 limits.Error) then
    ("failed", "is critical")
  else if Float64.gt value (float64 limits.Warning) then
    ("warning", "is high")
  else
    ("ok", "is fine")

/-! ## Check producers -/

/-- The struct literal that `CheckPartitions` builds for the partition with
index `i`. -/
def partitionCheckResult (env : World) (i : Nat) (partition : PartitionStat)
    (usage : UsageStat) (disk_usage_limits : Limits) : CheckResult :=
  let (status, messageStatus) := getStatus usage.UsedPercent disk_usage_limits
  { Name := "UsedDiskSpace" ++ toString i
    Label := "Used Disk Space: " ++ partition.Mountpoint
    Status := status
    NotificationMessage :=
      "Disk usage " ++ messageStatus ++ " (" ++ env.fmtFloat 0 usage.UsedPercent ++ "% used)"
    ShortSummary := env.fmtFloat 0 usage.UsedPercent ++ "%" }

/-- The loop `for i, partition := range partitions` of `CheckPartitions`, from
the iteration with index `i` on. -/
def partitionsLoop (env : World) (disk_usage_limits : Limits) :
    Nat → List PartitionStat → List CheckResult → List Event → Outcome (List CheckResult)
  | _, [], checkResults, tr => .returned checkResults tr
  | i, partition :: rest, checkResults, tr =>
    match env.usage i partition.Mountpoint with
    | .error err => .fatal err (tr ++ [Event.diskUsage partition.Mountpoint])
    | .ok usage =>
      if partition.Fstype ≠ "ext3" ∧ partition.Fstype ≠ "ext4" then
        partitionsLoop env disk_usage_limits (i + 1) rest checkResults
          (tr ++ [Event.diskUsage partition.Mountpoint])
      else
        partitionsLoop env disk_usage_limits (i + 1) rest
          (checkResults ++ [partitionCheckResult env i partition usage disk_usage_limits])
          (tr ++ [Event.diskUsage partition.Mountpoint])

/-- The Go function `CheckPartitions`; `checkResults` is the slice behind the
pointer, and the slice after the call is the value returned. -/
def CheckPartitions (env : World) (checkResults : List CheckResult)
    (disk_usage_limits : Limits) (tr : List Event) : Outcome (List CheckResult) :=
  match env.partitions with
  | .error err => .fatal err (tr ++ [Event.callCheckPartitions, Event.diskPartitions])
  | .ok partitions =>
    partitionsLoop env disk_usage_limits 0 partitions checkResults
      (tr ++ [Event.callCheckPartitions, Event.diskPartitions])

/-- The struct literal that `CheckLoad` builds. -/
def loadCheckResult (env : World) (load5 : Float64) (load_avg_limits : Limits) :
    CheckResult :=
  let (status, messageStatus) := getStatus load5 load_avg_limits
  { Name := "LoadAvg"
    Label := "Load Average Over 5 Minutes"
    Status := status
    NotificationMessage :=
      "Load Average " ++ messageStatus ++ " (" ++ env.fmtFloat 1 load5 ++ ")"
    ShortSummary := env.fmtFloat 1 load5 }

/-- The Go function `CheckLoad`. -/
def CheckLoad (env : World) (checkResults : List CheckResult)
    (load_avg_limits : Limits) (tr : List Event) : Outcome (List CheckResult) :=
  match env.load5 with
  | .error err => .fatal err (tr ++ [Event.callCheckLoad, Event.loadAvg])
  | .ok load5 =>
    .returned (checkResults ++ [loadCheckResult env load5 load_avg_limits])
      (tr ++ [Event.callCheckLoad, Event.loadAvg])

/-- The struct literal that `CheckMemory` builds. -/
def memoryCheckResult (env : World) (usedPercent : Float64) (mem_usage_limits : Limits) :
    CheckResult :=
  let (status, messageStatus) := getStatus usedPercent mem_usage_limits
  { Name := "MemUsage"
    Label := "Memory Usage in Percentage"
    Status := status
    NotificationMessage :=
      "Memory Usage " ++ messageStatus ++ " (" ++ env.fmtFloat 1 usedPercent ++ "%)"
    ShortSummary := env.fmtFloat 1 usedPercent ++ "%" }

/-- The Go function `CheckMemory`. -/
def CheckMemory (env : World) (checkResults : List CheckResult)
    (mem_usage_limits : Limits) (tr : List Event) : Outcome (List CheckResult) :=
  match env.memUsedPercent with
  | .error err => .fatal err (tr ++ [Event.callCheckMemory, Event.virtualMemory])
  | .ok usedPercent =>
    .returned (checkResults ++ [memoryCheckResult env usedPercent mem_usage_limits])
      (tr ++ [Event.callCheckMemory, Event.virtualMemory])

/-- The pair `(conn, err)` that `net.DialTimeout` returns: a connection and a
nil error, or a nil connection and an error. -/
def DialTimeout (env : World) (i : Nat) (address : String) : Option Conn × Option String :=
  match env.dial i address with
  | .success conn => (some conn, none)
  | .failure err => (none, some err)

/-- The struct literal of the branch `err != nil` of `CheckTcpServices`. -/
def tcpFailedResult (service : Service) : CheckResult :=
  { Name := service.Description
    Label := service.Description ++ " Service Availability"
    Status := "failed"
    NotificationMessage := "Service " ++ service.Description ++ " is not connectable"
    ShortSummary := "Can't Connect" }

/-- The struct literal of the branch `conn != nil` of `CheckTcpServices`. -/
def tcpOkResult (service : Service) : CheckResult :=
  { Name := service.Description
    Label := service.Description ++ " Service Availability"
    Status := "ok"
    NotificationMessage := "Service " ++ service.Description ++ " is available"
    ShortSummary := "Available" }

/-- The loop `for _, service := range tcp_services` of `CheckTcpServices`, from
the service at position `i` on; `deferred` holds the connections whose `Close`
has been deferred, the latest first. -/
def tcpLoop (env : World) :
    Nat → List Service → List CheckResult → List Conn → List Event →
      List CheckResult × List Conn × List Event
  | _, [], checkResults, deferred, tr => (checkResults, deferred, tr)
  | i, service :: rest, checkResults, deferred, tr =>
    let (conn, err) := DialTimeout env i service.Port
    let checkResults :=
      if err ≠ none then checkResults ++ [tcpFailedResult service] else checkResults
    match conn with
    | some c =>
      tcpLoop env (i + 1) rest (checkResults ++ [tcpOkResult service]) (c :: deferred)
        (tr ++ [Event.dialTimeout service.Port])
    | none =>
      tcpLoop env (i + 1) rest checkResults deferred (tr ++ [Event.dialTimeout service.Port])

/-- The Go function `CheckTcpServices`: the loop, then the deferred `Close`
calls, the latest first.  It has no path to `log.Fatal`. -/
def CheckTcpServices (env : World) (checkResults : List CheckResult)
    (tcp_services : List Service) (tr : List Event) : List CheckResult × List Event :=
  let (checkResults, deferred, tr) :=
    tcpLoop env 0 tcp_services checkResults [] (tr ++ [Event.callCheckTcpServices])
  (checkResults, tr ++ deferred.map Event.connClose)

/-! ## Response writer and handler -/

namespace ResponseWriter

/-- A response writer on which nothing has been called. -/
def fresh : ResponseWriter :=
  { header := fun _ => [], status := none, sentHeader := fun _ => [], body := [] }

/-- The method `WriteHeader`: it sends the status line with the header map of
this moment; a second call is ignored. -/
def WriteHeader (w : ResponseWriter) (code : Nat) : ResponseWriter :=
  match w.status with
  | some _ => w
  | none => { w with status := some code, sentHeader := w.header }

/-- The call `w.Header().Set(key, value)`: it edits the handler's header map. -/
def Set (w : ResponseWriter) (key value : String) : ResponseWriter :=
  { w with header := Function.update w.header key [value] }

/-- The method `Write`: it sends the status 200 first when no status has been
sent, then the body. -/
def Write (w : ResponseWriter) (body : JsonDoc) : ResponseWriter :=
  let w := match w.status with
    | some _ => w
    | none => w.WriteHeader 200
  { w with body := w.body ++ [body] }

end ResponseWriter

/-- The call `json.Marshal(resp)` on a `map[string]string`; it has no error
case for this type. -/
def jsonMarshal (resp : List (String × String)) : Except String JsonDoc :=
  .ok (JsonDoc.object resp)

/-- The call `json.MarshalIndent(report, "", "\t")`; it has no error case for
this type. -/
def jsonMarshalIndent (report : HealthCheckResult) : Except String JsonDoc :=
  .ok (JsonDoc.report report)

/-- The call `viper.ReadInConfig()`: it replaces the loaded configuration when
the file can be read and keeps it otherwise. -/
def ReadInConfig (env : World) (viper : Config) : Config :=
  match env.configFile with
  | some config => config
  | none => viper

/-- Sequencing of two steps, the second of which runs when the first returns. -/
def Outcome.andThen {α β : Type} (o : Outcome α) (f : α → List Event → Outcome β) :
    Outcome β :=
  match o with
  | .returned val tr => f val tr
  | .fatal msg tr => .fatal msg tr

/-- The Go function `handler`, run on a fresh response writer with `viper` the
configuration loaded before the request.  It returns the configuration loaded
after the request and the response writer. -/
def handler (env : World) (viper : Config) (r : Request) :
    Outcome (Config × ResponseWriter) :=
  let w := ResponseWriter.fresh
  if !checkSecret viper r then
    let w := w.WriteHeader 403
    let w := w.Set "Content-Type" "application/json"
    let resp := [("message", "Forbidden")]
    match jsonMarshal resp with
    | .error err =>
      .fatal ("Error happened in JSON marshal. Err: " ++ err)
        [Event.writeHeader 403, Event.headerSet "Content-Type" "application/json"]
    | .ok jsonResp =>
      let w := w.Write jsonResp
      .returned (viper, w)
        [Event.writeHeader 403, Event.headerSet "Content-Type" "application/json",
          Event.write jsonResp]
  else
    let viper := ReadInConfig env viper
    let load_avg_limits := viper.LoadAverage
    let mem_usage_limits := viper.MemoryUsagePercent
    let disk_usage_limits := viper.DiskUsagePercent
    let tcp_services := viper.TCPServices
    let tr := [Event.readInConfig, Event.unmarshalKey "LoadAverage",
      Event.unmarshalKey "MemoryUsagePercent", Event.unmarshalKey "DiskUsagePercent",
      Event.unmarshalKey "TCPServices"]
    let checkResults : List CheckResult := []
    (CheckPartitions env checkResults disk_usage_limits tr).andThen fun checkResults tr =>
    (CheckLoad env checkResults load_avg_limits tr).andThen fun checkResults tr =>
    (CheckMemory env checkResults disk_usage_limits tr).andThen fun checkResults tr =>
    let (checkResults, tr) := CheckTcpServices env checkResults tcp_services tr
    let report : HealthCheckResult := { FinishedAt := env.now, CheckResults := checkResults }
    let tr := tr ++ [Event.timeNow]
    let w := w.WriteHeader 200
    let w := w.Set "Content-Type" "application/json"
    let tr := tr ++ [Event.writeHeader 200, Event.headerSet "Content-Type" "application/json"]
    match jsonMarshalIndent report with
    | .error err => .fatal ("Error happened in JSON marshal. Err: " ++ err) tr
    | .ok jsonResp =>
      let w := w.Write jsonResp
      .returned (viper, w) (tr ++ [Event.write jsonResp])

/-! ## Reference descriptions used in the statements -/

/-- The order `a ≤ b` of two `float64` values: false when one of them is NaN,
otherwise the order of the extended reals. -/
def Float64.le : Float64 → Float64 → Bool
  | .nan, _ => false
  | _, .nan => false
  | .negInf, _ => true
  | _, .posInf => true
  | .posInf, _ => false
  | .fin _, .negInf => false
  | .fin a, .fin b => decide (a ≤ b)

/-- The `float64` value that denotes the integer `n` exactly, whatever its
size: the threshold as a number, before any conversion. -/
def Float64.ofIntExact (n : Int) : Float64 :=
  .fin (n : ℚ)

/-- A partition qualifies for a disk check when its type is ext3 or ext4. -/
def qualifies (p : PartitionStat) : Prop :=
  p.Fstype = "ext3" ∨ p.Fstype = "ext4"

instance (p : PartitionStat) : Decidable (qualifies p) := by
  unfold qualifies; infer_instance

/-- Whether the dial of the service at position `i` connects. -/
def dialSucceeds (env : World) (i : Nat) (service : Service) : Bool :=
  match env.dial i service.Port with
  | .success _ => true
  | .failure _ => false

/-- The result expected for the service at position `i`. -/
def tcpResult (env : World) (i : Nat) (service : Service) : CheckResult :=
  if dialSucceeds env i service then tcpOkResult service else tcpFailedResult service

/-- The results expected for a list of services whose first position is `i`. -/
def tcpResults (env : World) (i : Nat) (services : List Service) : List CheckResult :=
  (services.enumFrom i).map fun ip => tcpResult env ip.1 ip.2

/-- The positions, in the enumeration that starts at index `i`, of the
partitions that qualify. -/
def qualifyingIndicesFrom (i : Nat) (ps : List PartitionStat) : List Nat :=
  ((ps.enumFrom i).filter fun ip => decide (qualifies ip.2)).map Prod.fst

/-- The zero-based positions of the partitions that qualify. -/
def qualifyingIndices (ps : List PartitionStat) : List Nat :=
  qualifyingIndicesFrom 0 ps

/-- The name expected for the disk check of the partition at position `i`. -/
def diskCheckName (i : Nat) : String :=
  "UsedDiskSpace" ++ toString i

/-- The disk results expected for an enumeration that starts at index `i`, when
the usage query of the partition at position `k` answers `u k`. -/
def diskResultsFrom (env : World) (limits : Limits) (u : Nat → UsageStat) (i : Nat)
    (ps : List PartitionStat) : List CheckResult :=
  ((ps.enumFrom i).filter fun ip => decide (qualifies ip.2)).map
    fun ip => partitionCheckResult env ip.1 ip.2 (u ip.1) limits

/-- The disk results expected for a partition list. -/
def diskResults (env : World) (limits : Limits) (u : Nat → UsageStat)
    (ps : List PartitionStat) : List CheckResult :=
  diskResultsFrom env limits u 0 ps

/-- The value of a decimal digit character. -/
def digitValue (c : Char) : Nat :=
  c.toNat - 48

/-- The number that a list of decimal digit characters denotes. -/
def decimalValue (cs : List Char) : Nat :=
  cs.foldl (fun acc c => 10 * acc + digitValue c) 0

/-- The configuration of the examples; the memory limits differ from the disk
limits. -/
def exampleConfig : Config :=
  { Secret := "s3cret"
    LoadAverage := { Warning := 2, Error := 5 }
    MemoryUsagePercent := { Warning := 80, Error := 90 }
    DiskUsagePercent := { Warning := 10, Error := 20 }
    TCPServices := [⟨"Redis", "127.0.0.1:1"⟩] }

/-- The partition list of the examples: the first and the third partition
qualify, the second does not. -/
def examplePartitions : List PartitionStat :=
  [⟨"/", "ext4"⟩, ⟨"/proc", "proc"⟩, ⟨"/home", "ext3"⟩]

/-- A world for the examples: every usage query answers 50 percent, memory is
used at 50 percent, and no service is reachable. -/
def exampleWorld : World :=
  { configFile := some exampleConfig
    partitions := .ok examplePartitions
    usage := fun _ _ => .ok ⟨50⟩
    load5 := .ok 1
    memUsedPercent := .ok 50
    dial := fun _ _ => .failure "connection refused"
    now := 0
    fmtFloat := fun _ v =>
      match v with
      | .fin q => toString q.floor
      | .nan => "NaN"
      | .posInf => "+Inf"
      | .negInf => "-Inf" }

/-- The world of the examples, except that the usage query of the second
partition, which does not qualify, fails. -/
def exampleWorldUsageFails : World :=
  { exampleWorld with
    usage := fun i _ => if i = 1 then .error "permission denied" else .ok ⟨50⟩ }

/-- The limits of the examples. -/
def exampleLimits : Limits :=
  { Warning := 80, Error := 90 }

/-- A request that carries the secret of the examples exactly once. -/
def exampleRequest : Request :=
  { Header := fun key => if key = "Oh-Dear-Health-Check-Secret" then ["s3cret"] else [] }

/-- A request without the secret header. -/
def exampleRequestNoSecret : Request :=
  { Header := fun _ => [] }

/-! ## The classifier -/

theorem roundNat53_of_le (m : Nat) (h : m ≤ 2 ^ 53) : roundNat53 m = m := by
  unfold roundNat53
  rw [if_pos h]

theorem float64_exact (n : Int) (h : |n| ≤ 2 ^ 53) : float64 n = Float64.fin (n : ℚ) := by
  have habs : n.natAbs ≤ 2 ^ 53 := by
    have h1 : (n.natAbs : Int) ≤ 2 ^ 53 := by
      rw [← Int.abs_eq_natAbs]; exact h
    exact_mod_cast h1
  unfold float64
  rw [roundNat53_of_le _ habs]
  have hcast : ((n.natAbs : Nat) : ℚ) = ((|n| : Int) : ℚ) := Nat.cast_natAbs n
  by_cases hneg : n < 0
  · rw [if_pos hneg, hcast, abs_of_neg hneg]
    simp
  · rw [if_neg hneg, hcast, abs_of_nonneg (not_lt.mp hneg)]

theorem getStatus_of_exact (v : Float64) (limits : Limits)
    (hw : |limits.Warning| ≤ 2 ^ 53) (he : |limits.Error| ≤ 2 ^ 53) :
    getStatus v limits =
      if Float64.gt v (Float64.fin (limits.Error : ℚ)) then ("failed", "is critical")
      else if Float64.gt v (Float64.fin (limits.Warning : ℚ)) then ("warning", "is high")
      else ("ok", "is fine") := by
  unfold getStatus
  rw [float64_exact _ he, float64_exact _ hw]

/-- C1, as amended: for every value other than NaN and thresholds of magnitude
at most 2^53 with Warning ≤ Error, `getStatus` returns "failed" (with
"is critical") exactly when the value exceeds Error, "warning" (with "is high")
exactly when the value exceeds Warning and not Error, and "ok" (with "is fine")
exactly when the value does not exceed Warning; a value equal to a threshold
does not escalate. -/
theorem getStatus_classifies (v : Float64) (limits : Limits)
    (hv : v ≠ Float64.nan)
    (hw : |limits.Warning| ≤ 2 ^ 53) (he : |limits.Error| ≤ 2 ^ 53)
    (h : limits.Warning ≤ limits.Error) :
    ((getStatus v limits).1 = "failed" ↔
      Float64.gt v (Float64.ofIntExact limits.Error) = true) ∧
    (getStatus v limits = ("failed", "is critical") ↔
      Float64.gt v (Float64.ofIntExact limits.Error) = true) ∧
    ((getStatus v limits).1 = "warning" ↔
      Float64.gt v (Float64.ofIntExact limits.Warning) = true ∧
        Float64.le v (Float64.ofIntExact limits.Error) = true) ∧
    (getStatus v limits = ("warning", "is high") ↔
      Float64.gt v (Float64.ofIntExact limits.Warning) = true ∧
        Float64.le v (Float64.ofIntExact limits.Error) = true) ∧
    ((getStatus v limits).1 = "ok" ↔
      Float64.le v (Float64.ofIntExact limits.Warning) = true) ∧
    (getStatus v limits = ("ok", "is fine") ↔
      Float64.le v (Float64.ofIntExact limits.Warning) = true) ∧
    (∀ q : ℚ, v = Float64.fin q →
      ((getStatus v limits).1 = "failed" ↔ q > (limits.Error : ℚ)) ∧
      ((getStatus v limits).1 = "warning" ↔
        (limits.Warning : ℚ) < q ∧ q ≤ (limits.Error : ℚ)) ∧
      ((getStatus v limits).1 = "ok" ↔ q ≤ (limits.Warning : ℚ))) ∧
    (limits.Warning < limits.Error →
      getStatus (Float64.ofIntExact limits.Error) limits = ("warning", "is high")) ∧
    getStatus (Float64.ofIntExact limits.Warning) limits = ("ok", "is fine") := by
  have hwe : (limits.Warning : ℚ) ≤ (limits.Error : ℚ) := by exact_mod_cast h
  have hfw : ("failed" : String) ≠ "warning" := by decide
  have hfo : ("failed" : String) ≠ "ok" := by decide
  have hwo : ("warning" : String) ≠ "ok" := by decide
  have hfin : ∀ q : ℚ,
      ((getStatus (Float64.fin q) limits).1 = "failed" ↔ q > (limits.Error : ℚ)) ∧
      (getStatus (Float64.fin q) limits = ("failed", "is critical") ↔
        q > (limits.Error : ℚ)) ∧
      ((getStatus (Float64.fin q) limits).1 = "warning" ↔
        (limits.Warning : ℚ) < q ∧ q ≤ (limits.Error : ℚ)) ∧
      (getStatus (Float64.fin q) limits = ("warning", "is high") ↔
        (limits.Warning : ℚ) < q ∧ q ≤ (limits.Error : ℚ)) ∧
      ((getStatus (Float64.fin q) limits).1 = "ok" ↔ q ≤ (limits.Warning : ℚ)) ∧
      (getStatus (Float64.fin q) limits = ("ok", "is fine") ↔
        q ≤ (limits.Warning : ℚ)) := by
    intro q
    rw [getStatus_of_exact _ _ hw he]
    simp only [Float64.gt, decide_eq_true_eq]
    refine ⟨?_, ?_, ?_, ?_, ?_, ?_⟩
    · split_ifs with h1 h2
      · simp [h1]
      · simp [h1, hfw.symm]
      · simp [h1, hfo.symm]
    · split_ifs with h1 h2
      · simp [h1]
      · simp [h1, hfw.symm]
      · simp [h1, hfo.symm]
    · split_ifs with h1 h2
      · simp only [hfw, false_iff, not_and, not_le]
        intro _; exact h1
      · simp only [true_iff]
        exact ⟨h2, not_lt.mp h1⟩
      · simp only [hwo.symm, false_iff, not_and, not_le]
        intro h3; exact absurd h3 h2
    · split_ifs with h1 h2
      · simp only [Prod.mk.injEq, hfw, false_and, false_iff, not_and, not_le]
        intro _; exact h1
      · simp only [true_iff]
        exact ⟨h2, not_lt.mp h1⟩
      · simp only [Prod.mk.injEq, hwo.symm, false_and, false_iff, not_and, not_le]
        intro h3; exact absurd h3 h2
    · split_ifs with h1 h2
      · simp only [hfo, false_iff, not_le]
        exact lt_of_le_of_lt hwe h1
      · simp only [hwo, false_iff, not_le]
        exact h2
      · simp only [true_iff]
        exact not_lt.mp h2
    · split_ifs with h1 h2
      · simp only [Prod.mk.injEq, hfo, false_and, false_iff, not_le]
        exact lt_of_le_of_lt hwe h1
      · simp only [Prod.mk.injEq, hwo, false_and, false_iff, not_le]
        exact h2
      · simp only [true_iff]
        exact not_lt.mp h2
  have hbound : (limits.Warning < limits.Error →
      getStatus (Float64.ofIntExact limits.Error) limits = ("warning", "is high")) ∧
      getStatus (Float64.ofIntExact limits.Warning) limits = ("ok", "is fine") := by
    constructor
    · intro hlt
      have hlt' : (limits.Warning : ℚ) < (limits.Error : ℚ) := by exact_mod_cast hlt
      exact (hfin _).2.2.2.1.mpr ⟨hlt', le_refl _⟩
    · exact (hfin _).2.2.2.2.2.mpr (le_refl _)
  cases v with
  | nan => exact absurd rfl hv
  | negInf =>
    have hs : getStatus Float64.negInf limits = ("ok", "is fine") := by
      rw [getStatus_of_exact _ _ hw he]; rfl
    refine ⟨?_, ?_, ?_, ?_, ?_, ?_, ?_, hbound⟩
    · rw [hs]; simp [Float64.gt, Float64.ofIntExact, hfo.symm]
    · rw [hs]; simp [Float64.gt, Float64.ofIntExact, hfo.symm]
    · rw [hs]; simp [Float64.gt, Float64.ofIntExact, hwo.symm]
    · rw [hs]; simp [Float64.gt, Float64.ofIntExact, hwo.symm]
    · rw [hs]; simp [Float64.le, Float64.ofIntExact]
    · rw [hs]; simp [Float64.le, Float64.ofIntExact]
    · intro q hq; cases hq
  | posInf =>
    have hs : getStatus Float64.posInf limits = ("failed", "is critical") := by
      rw [getStatus_of_exact _ _ hw he]; rfl
    refine ⟨?_, ?_, ?_, ?_, ?_, ?_, ?_, hbound⟩
    · rw [hs]; simp [Float64.gt, Float64.ofIntExact]
    · rw [hs]; simp [Float64.gt, Float64.ofIntExact]
    · rw [hs]; simp [Float64.le, Float64.ofIntExact, hfw]
    · rw [hs]; simp [Float64.le, Float64.ofIntExact, hfw]
    · rw [hs]; simp [Float64.le, Float64.ofIntExact, hfo]
    · rw [hs]; simp [Float64.le, Float64.ofIntExact, hfo]
    · intro q hq; cases hq
  | fin q =>
    obtain ⟨h1, h2, h3, h4, h5, h6⟩ := hfin q
    refine ⟨?_, ?_, ?_, ?_, ?_, ?_, ?_, hbound⟩
    · rw [h1]; simp [Float64.gt, Float64.ofIntExact]
    · rw [h2]; simp [Float64.gt, Float64.ofIntExact]
    · rw [h3]; simp [Float64.gt, Float64.le, Float64.ofIntExact]
    · rw [h4]; simp [Float64.gt, Float64.le, Float64.ofIntExact]
    · rw [h5]; simp [Float64.le, Float64.ofIntExact]
    · rw [h6]; simp [Float64.le, Float64.ofIntExact]
    · intro q1 hq
      cases hq
      exact ⟨h1, h3, h5⟩

/-- With the thresholds 80 and 90, which are in order and small, the finite
value 85 is classified "warning". -/
theorem getStatus_classifies_witness :
    Float64.fin 85 ≠ Float64.nan ∧ |(80 : Int)| ≤ 2 ^ 53 ∧ |(90 : Int)| ≤ 2 ^ 53 ∧
    (80 : Int) ≤ 90 ∧
    getStatus (Float64.fin 85) ⟨80, 90⟩ = ("warning", "is high") :=
  ⟨by decide, by decide, by decide, by decide,
    (getStatus_classifies (Float64.fin 85) ⟨80, 90⟩ (by decide) (by decide) (by decide)
      (by decide)).2.2.2.1.2 ⟨by rfl, by rfl⟩⟩

/-- C1, as stated, fails at two inputs.  At NaN with the thresholds 80 and 90
the status is "ok" although NaN ≤ 80 is false.  At the value 2^53 + 4 with the
thresholds 0 and 2^53 + 3 the value exceeds Error, yet the status is "warning",
because `float64(2^53 + 3)` is 2^53 + 4. -/
theorem getStatus_misclassifies :
    ((80 : Int) ≤ 90 ∧
      getStatus Float64.nan ⟨80, 90⟩ = ("ok", "is fine") ∧
      ¬ ((getStatus Float64.nan ⟨80, 90⟩).1 = "ok" ↔
        Float64.le Float64.nan (Float64.ofIntExact 80) = true)) ∧
    ((0 : Int) ≤ 2 ^ 53 + 3 ∧
      float64 (2 ^ 53 + 4) = Float64.fin (2 ^ 53 + 4) ∧
      float64 (2 ^ 53 + 3) = Float64.fin (2 ^ 53 + 4) ∧
      getStatus (Float64.fin (2 ^ 53 + 4)) ⟨0, 2 ^ 53 + 3⟩ = ("warning", "is high") ∧
      ¬ ((getStatus (Float64.fin (2 ^ 53 + 4)) ⟨0, 2 ^ 53 + 3⟩).1 = "failed" ↔
        Float64.gt (Float64.fin (2 ^ 53 + 4)) (Float64.ofIntExact (2 ^ 53 + 3)) = true)) := by
  have hr3 : roundNat53 (2 ^ 53 + 3) = 2 ^ 53 + 4 := by rfl
  have hr4 : roundNat53 (2 ^ 53 + 4) = 2 ^ 53 + 4 := by rfl
  have hr0 : roundNat53 0 = 0 := by rfl
  have hn3 : ((2 : Int) ^ 53 + 3).natAbs = 2 ^ 53 + 3 := by rfl
  have hn4 : ((2 : Int) ^ 53 + 4).natAbs = 2 ^ 53 + 4 := by rfl
  have hf3 : float64 (2 ^ 53 + 3) = Float64.fin (2 ^ 53 + 4) := by
    unfold float64
    rw [if_neg (by norm_num), hn3, hr3]
    norm_num
  have hf4 : float64 (2 ^ 53 + 4) = Float64.fin (2 ^ 53 + 4) := by
    unfold float64
    rw [if_neg (by norm_num), hn4, hr4]
    norm_num
  have hf0 : float64 0 = Float64.fin 0 := by
    unfold float64
    rw [if_neg (by norm_num), Int.natAbs_zero, hr0]
    norm_num
  have hs : getStatus (Float64.fin (2 ^ 53 + 4)) ⟨0, 2 ^ 53 + 3⟩ = ("warning", "is high") := by
    unfold getStatus
    simp only [hf3, hf0, Float64.gt]
    norm_num
  refine ⟨⟨by decide, rfl, ?_⟩, by norm_num, hf4, hf3, hs, ?_⟩
  · intro h
    have := h.mp rfl
    simp [Float64.le] at this
  · intro h
    have h1 : Float64.gt (Float64.fin (2 ^ 53 + 4)) (Float64.ofIntExact (2 ^ 53 + 3)) = true := by
      simp only [Float64.gt, Float64.ofIntExact, decide_eq_true_eq]
      norm_num
    have h2 := h.mpr h1
    rw [hs] at h2
    revert h2
    decide

/-! ## The access gate -/

/-- C3: `checkSecret` returns true exactly when the secret header has exactly
one value and that value is the configured secret; with no value, with two or
more values, or with one different value it returns false. -/
theorem checkSecret_iff (viper : Config) (r : Request) :
    (checkSecret viper r = true ↔
      ∃ v, r.Header "Oh-Dear-Health-Check-Secret" = [v] ∧ v = viper.Secret) ∧
    (r.Header "Oh-Dear-Health-Check-Secret" = [] → checkSecret viper r = false) ∧
    (2 ≤ (r.Header "Oh-Dear-Health-Check-Secret").length → checkSecret viper r = false) ∧
    (∀ v, r.Header "Oh-Dear-Health-Check-Secret" = [v] → v ≠ viper.Secret →
      checkSecret viper r = false) := by
  unfold checkSecret secretHeaderName
  rcases hH : r.Header "Oh-Dear-Health-Check-Secret" with _ | ⟨a, _ | ⟨b, t⟩⟩
  · simp
  · by_cases ha : a = viper.Secret <;> simp [ha]
  · simp

/-! ## Decimal rendering of an index -/

theorem digitValue_digitChar (k : Nat) (h : k < 10) : digitValue (Nat.digitChar k) = k := by
  interval_cases k <;> rfl

theorem foldl_toDigitsCore (fuel : Nat) :
    ∀ (n : Nat) (ds : List Char), n < fuel →
      (Nat.toDigitsCore 10 fuel n ds).foldl (fun acc c => 10 * acc + digitValue c) 0 =
        ds.foldl (fun acc c => 10 * acc + digitValue c) n := by
  induction fuel with
  | zero => intro n ds h; omega
  | succ fuel ih =>
    intro n ds h
    have hd : digitValue (Nat.digitChar (n % 10)) = n % 10 :=
      digitValue_digitChar _ (Nat.mod_lt _ (by decide))
    unfold Nat.toDigitsCore
    by_cases h0 : n / 10 = 0
    · simp only [h0, if_true, List.foldl_cons, hd]
      congr 1
      omega
    · simp only [h0, if_false]
      rw [ih (n / 10) _ (by omega)]
      simp only [List.foldl_cons, hd]
      congr 1
      omega

theorem decimalValue_repr (n : Nat) : decimalValue (Nat.repr n).data = n := by
  unfold decimalValue Nat.repr Nat.toDigits
  simpa using foldl_toDigitsCore (n + 1) n [] (by omega)

theorem diskCheckName_injective : Function.Injective diskCheckName := by
  intro a b h
  unfold diskCheckName at h
  have h1 : ("UsedDiskSpace" ++ toString a).data = ("UsedDiskSpace" ++ toString b).data := by
    rw [h]
  rw [String.data_append, String.data_append] at h1
  have h2 : (Nat.repr a).data = (Nat.repr b).data := List.append_cancel_left h1
  have h3 := congrArg decimalValue h2
  rwa [decimalValue_repr, decimalValue_repr] at h3

/-! ## The TCP producer -/

theorem tcpLoop_results (env : World) :
    ∀ (services : List Service) (i : Nat) (rs : List CheckResult) (deferred : List Conn)
      (tr : List Event),
      (tcpLoop env i services rs deferred tr).1 = rs ++ tcpResults env i services := by
  intro services
  induction services with
  | nil => intro i rs deferred tr; simp [tcpLoop, tcpResults]
  | cons s rest ih =>
    intro i rs deferred tr
    unfold tcpLoop DialTimeout
    cases hd : env.dial i s.Port with
    | success c =>
      simp only [ne_eq, not_true_eq_false, if_false]
      rw [ih]
      simp [tcpResults, tcpResult, dialSucceeds, hd]
    | failure e =>
      simp only [ne_eq, reduceCtorEq, not_false_eq_true, if_true]
      rw [ih]
      simp [tcpResults, tcpResult, dialSucceeds, hd]

theorem CheckTcpServices_results (env : World) (rs : List CheckResult)
    (services : List Service) (tr : List Event) :
    (CheckTcpServices env rs services tr).1 = rs ++ tcpResults env 0 services := by
  unfold CheckTcpServices
  have h := tcpLoop_results env services 0 rs [] (tr ++ [Event.callCheckTcpServices])
  revert h
  rcases tcpLoop env 0 services rs [] (tr ++ [Event.callCheckTcpServices]) with ⟨a, b, c⟩
  intro h
  exact h

theorem tcpResults_length_names (env : World) (services : List Service) :
    ∃ new : List CheckResult, new = tcpResults env 0 services ∧
      new.length = services.length ∧
      new.map (fun c => c.Name) = services.map (fun s => s.Description) := by
  refine ⟨_, rfl, by simp [tcpResults], ?_⟩
  unfold tcpResults
  rw [List.map_map]
  have : ((fun c : CheckResult => c.Name) ∘ fun ip : Nat × Service => tcpResult env ip.1 ip.2)
      = (fun s : Service => s.Description) ∘ Prod.snd := by
    funext ip
    simp only [Function.comp, tcpResult]
    split_ifs <;> rfl
  rw [this, ← List.map_map, List.enumFrom_map_snd]

/-- C5: for every service list and every outcome of every dial,
`CheckTcpServices` appends exactly one result per service, in the order of the
list, named by the service's Description; the result is "ok" with summary
"Available" exactly when the dial connected, and "failed" with summary
"Can't Connect" otherwise. -/
theorem CheckTcpServices_one_per_service (env : World) (rs : List CheckResult)
    (services : List Service) (tr : List Event) :
    ∃ new : List CheckResult,
      (CheckTcpServices env rs services tr).1 = rs ++ new ∧
      new.length = services.length ∧
      new.map (fun c => c.Name) = services.map (fun s => s.Description) ∧
      ∀ (i : Nat) (s : Service), services[i]? = some s →
        ∃ c, new[i]? = some c ∧ c.Name = s.Description ∧
          (c.Status = "ok" ↔ dialSucceeds env i s = true) ∧
          (c.ShortSummary = "Available" ↔ dialSucceeds env i s = true) ∧
          (dialSucceeds env i s = true → c = tcpOkResult s) ∧
          (dialSucceeds env i s = false →
            c.Status = "failed" ∧ c.ShortSummary = "Can't Connect") := by
  obtain ⟨new, hnew, hlen, hnames⟩ := tcpResults_length_names env services
  subst hnew
  refine ⟨tcpResults env 0 services, CheckTcpServices_results env rs services tr, hlen,
    hnames, ?_⟩
  · intro i s hs
    refine ⟨tcpResult env i s, ?_, ?_, ?_, ?_, ?_, ?_⟩
    · simp [tcpResults, List.getElem?_enumFrom, hs]
    · unfold tcpResult; split_ifs <;> rfl
    · unfold tcpResult
      cases hd : dialSucceeds env i s
      · simp only [Bool.false_eq_true, if_false, tcpFailedResult, iff_false]; decide
      · simp [tcpOkResult]
    · unfold tcpResult
      cases hd : dialSucceeds env i s
      · simp only [Bool.false_eq_true, if_false, tcpFailedResult, iff_false]; decide
      · simp [tcpOkResult]
    · intro hd; simp [tcpResult, hd]
    · intro hd; simp [tcpResult, hd, tcpFailedResult]

/-! ## The disk producer -/

theorem partitionsLoop_of_usage_ok (env : World) (limits : Limits) (u : Nat → UsageStat) :
    ∀ (ps : List PartitionStat) (i : Nat) (rs : List CheckResult) (tr : List Event),
      (∀ j p, ps[j]? = some p → env.usage (i + j) p.Mountpoint = .ok (u (i + j))) →
      partitionsLoop env limits i ps rs tr =
        .returned (rs ++ diskResultsFrom env limits u i ps)
          (tr ++ ps.map fun p => Event.diskUsage p.Mountpoint) := by
  intro ps
  induction ps with
  | nil => intro i rs tr _; simp [partitionsLoop, diskResultsFrom]
  | cons p rest ih =>
    intro i rs tr h
    have h0 : env.usage i p.Mountpoint = .ok (u i) := by simpa using h 0 p (by simp)
    have hrest : ∀ j q, rest[j]? = some q →
        env.usage (i + 1 + j) q.Mountpoint = .ok (u (i + 1 + j)) := by
      intro j q hq
      have := h (j + 1) q (by simpa using hq)
      rwa [show i + (j + 1) = i + 1 + j by omega] at this
    unfold partitionsLoop
    simp only [h0]
    by_cases hq : qualifies p
    · have hc : ¬ (p.Fstype ≠ "ext3" ∧ p.Fstype ≠ "ext4") := by
        unfold qualifies at hq; tauto
      rw [if_neg hc, ih (i + 1) _ _ hrest]
      simp [diskResultsFrom, hq]
    · have hc : p.Fstype ≠ "ext3" ∧ p.Fstype ≠ "ext4" := by
        unfold qualifies at hq; tauto
      rw [if_pos hc, ih (i + 1) _ _ hrest]
      simp [diskResultsFrom, hq]

theorem partitionsLoop_returned (env : World) (limits : Limits) :
    ∀ (ps : List PartitionStat) (i : Nat) (rs : List CheckResult) (tr : List Event)
      (rs1 : List CheckResult) (tr1 : List Event),
      partitionsLoop env limits i ps rs tr = .returned rs1 tr1 →
      ∃ new : List CheckResult, rs1 = rs ++ new ∧
        new.map (fun c => c.Name) = (qualifyingIndicesFrom i ps).map diskCheckName := by
  intro ps
  induction ps with
  | nil =>
    intro i rs tr rs1 tr1 h
    simp only [partitionsLoop, Outcome.returned.injEq] at h
    exact ⟨[], by simp [h.1], by simp [qualifyingIndicesFrom]⟩
  | cons p rest ih =>
    intro i rs tr rs1 tr1 h
    unfold partitionsLoop at h
    cases hu : env.usage i p.Mountpoint with
    | error e => simp [hu] at h
    | ok usage =>
      simp only [hu] at h
      by_cases hq : qualifies p
      · have hc : ¬ (p.Fstype ≠ "ext3" ∧ p.Fstype ≠ "ext4") := by
          unfold qualifies at hq; tauto
        rw [if_neg hc] at h
        obtain ⟨new, h1, h2⟩ := ih _ _ _ _ _ h
        refine ⟨partitionCheckResult env i p usage limits :: new, by simp [h1], ?_⟩
        simp only [List.map_cons, h2, qualifyingIndicesFrom, List.enumFrom_cons,
          List.filter_cons, hq, decide_True, if_true]
        rfl
      · have hc : p.Fstype ≠ "ext3" ∧ p.Fstype ≠ "ext4" := by
          unfold qualifies at hq; tauto
        rw [if_pos hc] at h
        obtain ⟨new, h1, h2⟩ := ih _ _ _ _ _ h
        refine ⟨new, h1, ?_⟩
        simp [h2, qualifyingIndicesFrom, hq]

theorem qualifyingIndicesFrom_pairwise (i : Nat) (ps : List PartitionStat) :
    (qualifyingIndicesFrom i ps).Pairwise (· < ·) := by
  unfold qualifyingIndicesFrom
  have hsub : (((ps.enumFrom i).filter fun ip => decide (qualifies ip.2)).map Prod.fst).Sublist
      ((ps.enumFrom i).map Prod.fst) := List.Sublist.map _ (List.filter_sublist _)
  rw [List.enumFrom_map_fst] at hsub
  exact List.Pairwise.sublist hsub (List.pairwise_lt_range' i ps.length)

theorem mem_qualifyingIndices (ps : List PartitionStat) (i : Nat) :
    i ∈ qualifyingIndices ps ↔ ∃ p, ps[i]? = some p ∧ qualifies p := by
  unfold qualifyingIndices qualifyingIndicesFrom
  simp only [List.mem_map, List.mem_filter, decide_eq_true_eq, Prod.exists,
    exists_and_right, exists_eq_right]
  constructor
  · rintro ⟨p, hm, hq⟩
    exact ⟨p, List.mk_mem_enum_iff_getElem?.mp hm, hq⟩
  · rintro ⟨p, hm, hq⟩
    exact ⟨p, List.mk_mem_enum_iff_getElem?.mpr hm, hq⟩

theorem length_filter_enumFrom (f : PartitionStat → Bool) :
    ∀ (ps : List PartitionStat) (i : Nat),
      ((ps.enumFrom i).filter fun ip => f ip.2).length = ps.countP f := by
  intro ps
  induction ps with
  | nil => intro i; simp
  | cons p rest ih =>
    intro i
    simp only [List.enumFrom_cons, List.filter_cons, List.countP_cons]
    cases hf : f p
    · simpa using ih (i + 1)
    · simpa using ih (i + 1)

theorem mem_diskResults (env : World) (limits : Limits) (u : Nat → UsageStat)
    (ps : List PartitionStat) (c : CheckResult) :
    c ∈ diskResults env limits u ps ↔
      ∃ i p, ps[i]? = some p ∧ qualifies p ∧ c = partitionCheckResult env i p (u i) limits := by
  unfold diskResults diskResultsFrom
  simp only [List.mem_map, List.mem_filter, decide_eq_true_eq, Prod.exists]
  constructor
  · rintro ⟨i, p, ⟨hm, hq⟩, rfl⟩
    exact ⟨i, p, List.mk_mem_enum_iff_getElem?.mp hm, hq, rfl⟩
  · rintro ⟨i, p, hm, hq, rfl⟩
    exact ⟨i, p, ⟨List.mk_mem_enum_iff_getElem?.mpr hm, hq⟩, rfl⟩

theorem partitionCheckResult_status (env : World) (i : Nat) (p : PartitionStat)
    (usage : UsageStat) (limits : Limits) :
    (partitionCheckResult env i p usage limits).Status =
      (getStatus usage.UsedPercent limits).1 := rfl

theorem partitionCheckResult_name (env : World) (i : Nat) (p : PartitionStat)
    (usage : UsageStat) (limits : Limits) :
    (partitionCheckResult env i p usage limits).Name = diskCheckName i := rfl

theorem CheckPartitions_of_usage_ok (env : World) (rs : List CheckResult) (limits : Limits)
    (tr : List Event) (ps : List PartitionStat) (u : Nat → UsageStat)
    (hp : env.partitions = .ok ps)
    (hu : ∀ i p, ps[i]? = some p → env.usage i p.Mountpoint = .ok (u i)) :
    CheckPartitions env rs limits tr =
      .returned (rs ++ diskResults env limits u ps)
        (tr ++ [Event.callCheckPartitions, Event.diskPartitions] ++
          ps.map fun p => Event.diskUsage p.Mountpoint) := by
  unfold CheckPartitions
  simp only [hp]
  rw [partitionsLoop_of_usage_ok env limits u ps 0 rs _ (by simpa using hu)]
  rfl

/-- C6: when the partition query returns a list and every usage query
succeeds, `CheckPartitions` returns normally, appends one result for each
partition of type ext3 or ext4 and none for any other partition, so that the
number of results appended is the number of ext3/ext4 partitions, and the
status of each result is `getStatus` of that partition's used-percent under the
disk limits. -/
theorem CheckPartitions_filters (env : World) (rs : List CheckResult) (limits : Limits)
    (tr : List Event) (ps : List PartitionStat) (u : Nat → UsageStat)
    (hp : env.partitions = .ok ps)
    (hu : ∀ i p, ps[i]? = some p → env.usage i p.Mountpoint = .ok (u i)) :
    ∃ (new : List CheckResult) (tr1 : List Event),
      CheckPartitions env rs limits tr = .returned (rs ++ new) tr1 ∧
      new = diskResults env limits u ps ∧
      new.length = ps.countP (fun p => decide (p.Fstype = "ext3" ∨ p.Fstype = "ext4")) ∧
      (∀ c ∈ new, ∃ i p, ps[i]? = some p ∧ (p.Fstype = "ext3" ∨ p.Fstype = "ext4") ∧
        c.Name = diskCheckName i ∧
        c.Status = (getStatus (u i).UsedPercent limits).1) ∧
      (∀ i p, ps[i]? = some p → (p.Fstype = "ext3" ∨ p.Fstype = "ext4") →
        ∃ c ∈ new, c.Name = diskCheckName i ∧
          c.Status = (getStatus (u i).UsedPercent limits).1) ∧
      (∀ i p, ps[i]? = some p → ¬ (p.Fstype = "ext3" ∨ p.Fstype = "ext4") →
        ∀ c ∈ new, c.Name ≠ diskCheckName i) := by
  refine ⟨diskResults env limits u ps, _,
    CheckPartitions_of_usage_ok env rs limits tr ps u hp hu, rfl, ?_, ?_, ?_, ?_⟩
  · unfold diskResults diskResultsFrom
    rw [List.length_map]
    exact length_filter_enumFrom (fun p => decide (qualifies p)) ps 0
  · intro c hc
    obtain ⟨i, p, hm, hq, rfl⟩ := (mem_diskResults env limits u ps c).mp hc
    exact ⟨i, p, hm, hq, rfl, rfl⟩
  · intro i p hm hq
    exact ⟨partitionCheckResult env i p (u i) limits,
      (mem_diskResults env limits u ps _).mpr ⟨i, p, hm, hq, rfl⟩, rfl, rfl⟩
  · intro i p hm hq c hc hname
    obtain ⟨j, q, hmj, hqj, rfl⟩ := (mem_diskResults env limits u ps c).mp hc
    have hij : j = i := diskCheckName_injective hname
    subst hij
    rw [hm] at hmj
    cases hmj
    exact hq hqj

/-- On the partition list of the examples, where every usage query succeeds,
two of the three partitions qualify and two results are appended. -/
theorem CheckPartitions_filters_witness :
    exampleWorld.partitions = .ok examplePartitions ∧
    (∀ i p, examplePartitions[i]? = some p →
      exampleWorld.usage i p.Mountpoint = .ok ((fun _ => ⟨50⟩) i)) ∧
    ∃ (new : List CheckResult) (tr1 : List Event),
      CheckPartitions exampleWorld [] exampleLimits [] = .returned ([] ++ new) tr1 ∧
      new.length = 2 := by
  refine ⟨rfl, fun _ _ _ => rfl, ?_⟩
  obtain ⟨new, tr1, h1, _, h3, _⟩ :=
    CheckPartitions_filters exampleWorld [] exampleLimits [] examplePartitions
      (fun _ => ⟨50⟩) rfl (fun _ _ _ => rfl)
  exact ⟨new, tr1, h1, by rw [h3]; decide⟩

/-- C7: when `CheckPartitions` returns, the result it appended for the
qualifying partition at zero-based position `i` of the full partition list is
named "UsedDiskSpace" followed by the decimal rendering of `i`; the positions
appear in strictly increasing order and the names are pairwise distinct. -/
theorem CheckPartitions_names (env : World) (rs : List CheckResult) (limits : Limits)
    (tr : List Event) (ps : List PartitionStat) (rs1 : List CheckResult) (tr1 : List Event)
    (hp : env.partitions = .ok ps)
    (h : CheckPartitions env rs limits tr = .returned rs1 tr1) :
    ∃ new : List CheckResult, rs1 = rs ++ new ∧
      new.map (fun c => c.Name) =
        (qualifyingIndices ps).map (fun i => "UsedDiskSpace" ++ toString i) ∧
      (∀ i, i ∈ qualifyingIndices ps ↔
        ∃ p, ps[i]? = some p ∧ (p.Fstype = "ext3" ∨ p.Fstype = "ext4")) ∧
      (qualifyingIndices ps).Pairwise (· < ·) ∧
      (new.map (fun c => c.Name)).Nodup := by
  unfold CheckPartitions at h
  simp only [hp] at h
  obtain ⟨new, h1, h2⟩ := partitionsLoop_returned env limits ps 0 rs _ rs1 tr1 h
  refine ⟨new, h1, h2, mem_qualifyingIndices ps, qualifyingIndicesFrom_pairwise 0 ps, ?_⟩
  rw [h2]
  have hnd : (qualifyingIndices ps).Nodup :=
    (qualifyingIndicesFrom_pairwise 0 ps).imp (fun hab => Nat.ne_of_lt hab)
  exact hnd.map diskCheckName_injective

/-- On the partition list of the examples the skipped second partition consumes
the index 1: the names end in 0 and 2. -/
theorem CheckPartitions_names_witness :
    exampleWorld.partitions = .ok examplePartitions ∧
    CheckPartitions exampleWorld [] exampleLimits [] =
      .returned ([] ++ diskResults exampleWorld exampleLimits (fun _ => ⟨50⟩) examplePartitions)
        ([] ++ [Event.callCheckPartitions, Event.diskPartitions] ++
          examplePartitions.map fun p => Event.diskUsage p.Mountpoint) ∧
    ∃ new : List CheckResult,
      [] ++ diskResults exampleWorld exampleLimits (fun _ => ⟨50⟩) examplePartitions
        = [] ++ new ∧
      new.map (fun c => c.Name) = ["UsedDiskSpace0", "UsedDiskSpace2"] := by
  have hrun := CheckPartitions_of_usage_ok exampleWorld [] exampleLimits [] examplePartitions
    (fun _ => ⟨50⟩) rfl (fun _ _ _ => rfl)
  refine ⟨rfl, hrun, ?_⟩
  obtain ⟨new, h1, h2, _⟩ :=
    CheckPartitions_names exampleWorld [] exampleLimits [] examplePartitions _ _ rfl hrun
  refine ⟨new, h1, ?_⟩
  rw [h2]
  decide

/-! ## The handler -/

/-- C4: when `checkSecret` rejects the request, `handler` returns having made
exactly three calls, all on the response writer: the status 403, the header
edit and the write of the JSON object with the single member
"message" = "Forbidden".  The loaded configuration is unchanged, and no
reload, producer call, metrics query, dial or report occurs. -/
theorem handler_rejects (env : World) (viper : Config) (r : Request)
    (h : checkSecret viper r = false) :
    ∃ (w : ResponseWriter) (tr : List Event),
      handler env viper r = .returned (viper, w) tr ∧
      w.status = some 403 ∧
      w.body = [JsonDoc.object [("message", "Forbidden")]] ∧
      tr = [Event.writeHeader 403, Event.headerSet "Content-Type" "application/json",
        Event.write (JsonDoc.object [("message", "Forbidden")])] ∧
      Event.readInConfig ∉ tr ∧
      Event.callCheckPartitions ∉ tr ∧ Event.callCheckLoad ∉ tr ∧
      Event.callCheckMemory ∉ tr ∧ Event.callCheckTcpServices ∉ tr ∧
      Event.diskPartitions ∉ tr ∧ Event.loadAvg ∉ tr ∧ Event.virtualMemory ∉ tr ∧
      (∀ m, Event.diskUsage m ∉ tr) ∧ (∀ a, Event.dialTimeout a ∉ tr) ∧
      (∀ report, JsonDoc.report report ∉ w.body) := by
  have hrun : handler env viper r =
      .returned
        (viper, ((ResponseWriter.fresh.WriteHeader 403).Set "Content-Type"
          "application/json").Write (JsonDoc.object [("message", "Forbidden")]))
        [Event.writeHeader 403, Event.headerSet "Content-Type" "application/json",
          Event.write (JsonDoc.object [("message", "Forbidden")])] := by
    unfold handler
    simp only [h, Bool.not_false, if_true, jsonMarshal]
  refine ⟨_, _, hrun, rfl, rfl, rfl, ?_⟩
  simp [ResponseWriter.Write, ResponseWriter.Set, ResponseWriter.WriteHeader,
    ResponseWriter.fresh]

/-- A request without the secret header is rejected with the status 403 after
three calls on the response writer. -/
theorem handler_rejects_witness :
    checkSecret exampleConfig exampleRequestNoSecret = false ∧
    ∃ (w : ResponseWriter) (tr : List Event),
      handler exampleWorld exampleConfig exampleRequestNoSecret =
        .returned (exampleConfig, w) tr ∧
      w.status = some 403 ∧ tr.length = 3 := by
  refine ⟨rfl, ?_⟩
  obtain ⟨w, tr, h1, h2, _, h4, _⟩ :=
    handler_rejects exampleWorld exampleConfig exampleRequestNoSecret rfl
  exact ⟨w, tr, h1, h2, by rw [h4]; rfl⟩

theorem handler_accepts (env : World) (viper : Config) (r : Request)
    (ps : List PartitionStat) (u : Nat → UsageStat) (l m : Float64)
    (hs : checkSecret viper r = true)
    (hp : env.partitions = .ok ps)
    (hu : ∀ i p, ps[i]? = some p → env.usage i p.Mountpoint = .ok (u i))
    (hl : env.load5 = .ok l) (hm : env.memUsedPercent = .ok m) :
    ∃ (w : ResponseWriter) (tr : List Event),
      handler env viper r = .returned (ReadInConfig env viper, w) tr ∧
      w.status = some 200 ∧
      w.sentHeader "Content-Type" = [] ∧
      w.body = [JsonDoc.report
        { FinishedAt := env.now
          CheckResults :=
            diskResults env (ReadInConfig env viper).DiskUsagePercent u ps ++
              [loadCheckResult env l (ReadInConfig env viper).LoadAverage] ++
              [memoryCheckResult env m (ReadInConfig env viper).DiskUsagePercent] ++
              tcpResults env 0 (ReadInConfig env viper).TCPServices }] := by
  unfold handler
  simp only [hs, Bool.not_true, Bool.false_eq_true, if_false]
  rw [CheckPartitions_of_usage_ok env [] _ _ ps u hp hu]
  simp only [Outcome.andThen, CheckLoad, hl, CheckMemory, hm, jsonMarshalIndent]
  simp only [CheckTcpServices_results, List.nil_append]
  exact ⟨_, _, rfl, rfl, rfl, by simp [ResponseWriter.Write, ResponseWriter.Set,
    ResponseWriter.WriteHeader, ResponseWriter.fresh]⟩

/-- C8: for an authenticated request on which every metrics query succeeds, the
report's checkResults are the disk results in partition order, then the one
"LoadAvg" result, then the one "MemUsage" result, then the TCP results in
service order; their number is the number of ext3/ext4 partitions plus two plus
the number of services; and each producer returns its input sequence with its
own results appended. -/
theorem handler_report_order (env : World) (viper : Config) (r : Request)
    (ps : List PartitionStat) (u : Nat → UsageStat) (l m : Float64)
    (hs : checkSecret viper r = true)
    (hp : env.partitions = .ok ps)
    (hu : ∀ i p, ps[i]? = some p → env.usage i p.Mountpoint = .ok (u i))
    (hl : env.load5 = .ok l) (hm : env.memUsedPercent = .ok m) :
    ∃ (cfg : Config) (w : ResponseWriter) (tr : List Event)
      (disk : List CheckResult) (load mem : CheckResult) (tcp : List CheckResult),
      handler env viper r = .returned (cfg, w) tr ∧
      cfg = ReadInConfig env viper ∧
      w.body = [JsonDoc.report
        { FinishedAt := env.now, CheckResults := disk ++ [load] ++ [mem] ++ tcp }] ∧
      disk = diskResults env cfg.DiskUsagePercent u ps ∧
      load = loadCheckResult env l cfg.LoadAverage ∧ load.Name = "LoadAvg" ∧
      (∃ limits, mem = memoryCheckResult env m limits) ∧ mem.Name = "MemUsage" ∧
      tcp = tcpResults env 0 cfg.TCPServices ∧
      tcp.map (fun c => c.Name) = cfg.TCPServices.map (fun s => s.Description) ∧
      (disk ++ [load] ++ [mem] ++ tcp).length =
        ps.countP (fun p => decide (p.Fstype = "ext3" ∨ p.Fstype = "ext4")) + 2 +
          cfg.TCPServices.length ∧
      (∀ rs limits tr0, ∃ tr1, CheckPartitions env rs limits tr0 =
        .returned (rs ++ diskResults env limits u ps) tr1) ∧
      (∀ rs limits tr0, ∃ tr1, CheckLoad env rs limits tr0 =
        .returned (rs ++ [loadCheckResult env l limits]) tr1) ∧
      (∀ rs limits tr0, ∃ tr1, CheckMemory env rs limits tr0 =
        .returned (rs ++ [memoryCheckResult env m limits]) tr1) ∧
      (∀ rs services tr0, (CheckTcpServices env rs services tr0).1 =
        rs ++ tcpResults env 0 services) := by
  obtain ⟨w, tr, hrun, _, _, hbody⟩ := handler_accepts env viper r ps u l m hs hp hu hl hm
  refine ⟨ReadInConfig env viper, w, tr, _, _, _, _, hrun, rfl, hbody, rfl, rfl, rfl,
    ⟨_, rfl⟩, rfl, rfl, ?_, ?_, ?_, ?_, ?_, ?_⟩
  · obtain ⟨new, h1, _, h3⟩ :=
      tcpResults_length_names env (ReadInConfig env viper).TCPServices
    rw [← h1]; exact h3
  · simp only [List.length_append, List.length_singleton, diskResults, diskResultsFrom,
      tcpResults, List.length_map, List.enumFrom_length]
    rw [length_filter_enumFrom (fun p => decide (qualifies p)) ps 0]
    rfl
  · intro rs limits tr0
    exact ⟨_, CheckPartitions_of_usage_ok env rs limits tr0 ps u hp hu⟩
  · intro rs limits tr0
    exact ⟨tr0 ++ [Event.callCheckLoad, Event.loadAvg], by simp only [CheckLoad, hl]⟩
  · intro rs limits tr0
    exact ⟨tr0 ++ [Event.callCheckMemory, Event.virtualMemory],
      by simp only [CheckMemory, hm]⟩
  · intro rs services tr0
    exact CheckTcpServices_results env rs services tr0

/-- On the request, configuration and world of the examples the report holds
five results: two disk results, "LoadAvg", "MemUsage" and one TCP result. -/
theorem handler_report_order_witness :
    checkSecret exampleConfig exampleRequest = true ∧
    exampleWorld.partitions = .ok examplePartitions ∧
    (∀ i p, examplePartitions[i]? = some p →
      exampleWorld.usage i p.Mountpoint = .ok ((fun _ => ⟨50⟩) i)) ∧
    exampleWorld.load5 = .ok 1 ∧ exampleWorld.memUsedPercent = .ok 50 ∧
    ∃ (w : ResponseWriter) (tr : List Event) (rs : List CheckResult),
      handler exampleWorld exampleConfig exampleRequest = .returned (exampleConfig, w) tr ∧
      w.body = [JsonDoc.report { FinishedAt := 0, CheckResults := rs }] ∧
      rs.length = 5 := by
  refine ⟨rfl, rfl, fun _ _ _ => rfl, rfl, rfl, ?_⟩
  obtain ⟨cfg, w, tr, disk, load, mem, tcp, hrun, hcfg, hbody, _, _, _, _, _, _, _, hlen, _⟩ :=
    handler_report_order exampleWorld exampleConfig exampleRequest examplePartitions
      (fun _ => ⟨50⟩) 1 50 rfl rfl (fun _ _ _ => rfl) rfl rfl
  subst hcfg
  refine ⟨w, tr, _, hrun, hbody, ?_⟩
  rw [hlen]
  decide

/-! ## Places where the code departs from its description -/

/-- C2: with memory limits (80, 90), disk limits (10, 20) and memory used at 50
percent, the "MemUsage" result of the report has status "failed", which is
`getStatus` under the disk limits, while `getStatus` under the configured
memory limits is "ok": `handler` passes the disk limits to `CheckMemory`. -/
theorem handler_memory_uses_disk_limits :
    exampleConfig.MemoryUsagePercent = ⟨80, 90⟩ ∧
    exampleConfig.DiskUsagePercent = ⟨10, 20⟩ ∧
    exampleWorld.memUsedPercent = .ok 50 ∧
    (getStatus 50 exampleConfig.MemoryUsagePercent).1 = "ok" ∧
    (getStatus 50 exampleConfig.DiskUsagePercent).1 = "failed" ∧
    ∃ (w : ResponseWriter) (tr : List Event) (report : HealthCheckResult) (c : CheckResult),
      handler exampleWorld exampleConfig exampleRequest = .returned (exampleConfig, w) tr ∧
      w.body = [JsonDoc.report report] ∧
      report.CheckResults[3]? = some c ∧
      report.CheckResults.filter (fun d => decide (d.Name = "MemUsage")) = [c] ∧
      c.Name = "MemUsage" ∧
      c.Status = "failed" ∧
      c.Status ≠ (getStatus 50 exampleConfig.MemoryUsagePercent).1 := by
  have hok : (getStatus 50 exampleConfig.MemoryUsagePercent).1 = "ok" := by rfl
  have hfailed : (getStatus 50 exampleConfig.DiskUsagePercent).1 = "failed" := by rfl
  refine ⟨rfl, rfl, rfl, hok, hfailed, ?_⟩
  obtain ⟨w, tr, hrun, _, _, hbody⟩ :=
    handler_accepts exampleWorld exampleConfig exampleRequest examplePartitions
      (fun _ => ⟨50⟩) 1 50 rfl rfl (fun _ _ _ => rfl) rfl rfl
  refine ⟨w, tr, _, memoryCheckResult exampleWorld 50 exampleConfig.DiskUsagePercent,
    hrun, hbody, ?_, ?_, rfl, hfailed, ?_⟩
  · rfl
  · rfl
  · show (getStatus 50 exampleConfig.DiskUsagePercent).1 ≠ _
    rw [hok, hfailed]
    decide

/-- C9: on the authenticated request of the examples the status 200, and on the
request without the secret the status 403, is sent with a header map that has
no Content-Type: `handler` calls `WriteHeader` before it sets the header, so
the value "application/json" reaches only the handler's own map. -/
theorem handler_content_type_not_sent :
    (∃ (w : ResponseWriter) (tr : List Event),
      handler exampleWorld exampleConfig exampleRequest = .returned (exampleConfig, w) tr ∧
      w.status = some 200 ∧
      w.sentHeader "Content-Type" = [] ∧
      w.sentHeader "Content-Type" ≠ ["application/json"] ∧
      w.header "Content-Type" = ["application/json"] ∧
      ∃ body, tr.drop (tr.length - 3) =
        [Event.writeHeader 200, Event.headerSet "Content-Type" "application/json",
          Event.write body]) ∧
    (∃ (w : ResponseWriter) (tr : List Event),
      handler exampleWorld exampleConfig exampleRequestNoSecret =
        .returned (exampleConfig, w) tr ∧
      w.status = some 403 ∧
      w.sentHeader "Content-Type" = [] ∧
      w.sentHeader "Content-Type" ≠ ["application/json"] ∧
      w.header "Content-Type" = ["application/json"] ∧
      ∃ body, tr =
        [Event.writeHeader 403, Event.headerSet "Content-Type" "application/json",
          Event.write body]) := by
  constructor
  · exact ⟨_, _, rfl, rfl, rfl, by decide, rfl, _, rfl⟩
  · exact ⟨_, _, rfl, rfl, rfl, by decide, rfl, _, rfl⟩

/-- C10: the two worlds of the examples differ only in the answer of the usage
query for the second partition, whose type "proc" is neither ext3 nor ext4;
with the query succeeding `CheckPartitions` returns two results, with the query
failing it aborts fatally: the usage query runs before the type is tested. -/
theorem CheckPartitions_fatal_on_skipped_partition :
    exampleWorld.partitions = .ok examplePartitions ∧
    exampleWorldUsageFails.partitions = .ok examplePartitions ∧
    examplePartitions[1]? = some ⟨"/proc", "proc"⟩ ∧
    (∀ i mountpoint, i ≠ 1 →
      exampleWorldUsageFails.usage i mountpoint = exampleWorld.usage i mountpoint) ∧
    (∃ (rs : List CheckResult) (tr : List Event),
      CheckPartitions exampleWorld [] exampleLimits [] = .returned rs tr ∧
      rs.map (fun c => c.Name) = ["UsedDiskSpace0", "UsedDiskSpace2"]) ∧
    CheckPartitions exampleWorldUsageFails [] exampleLimits [] =
      .fatal "permission denied"
        [Event.callCheckPartitions, Event.diskPartitions, Event.diskUsage "/",
          Event.diskUsage "/proc"] := by
  refine ⟨rfl, rfl, rfl, ?_, ⟨_, _, rfl, ?_⟩, rfl⟩
  · intro i mountpoint hi
    simp [exampleWorldUsageFails, exampleWorld, hi]
  · rfl

end OhDear
